import Mathlib

/- Verification development for the brsp render-farm worker (src/main.rs).
   The Rust source is shallowly embedded: pure fragments become Lean
   functions over Nat / List Nat (bytes), stateful fragments become explicit
   state-passing step functions, and every panic or blocking read of the
   source is an explicit terminal outcome of the model. -/

/-- Wire codec, encode side (src/main.rs, fn to_header, lines 449-454):
a two-byte little-endian unsigned length prefix followed by the payload
bytes. The source's u16::try_from(content.len()).unwrap() panics when the
payload does not fit in 16 bits; that is modelled as none. -/
def to_header (content : List Nat) : Option (List Nat) :=
  if content.length < 65536 then
    some (content.length % 256 :: content.length / 256 :: content)
  else none

/-- Wire codec, decode side (src/main.rs, fn read_header, lines 439-447):
reads two length bytes, then exactly that many payload bytes. A stream that
ends early (read_exact error) is modelled as none. Returns the payload and
the unconsumed remainder of the stream. -/
def read_header (stream : List Nat) : Option (List Nat × List Nat) :=
  match stream with
  | b0 :: b1 :: rest =>
    let len := b0 + 256 * b1
    if len ≤ rest.length then some (rest.take len, rest.drop len) else none
  | _ => none

/-- Rust str::split for a one-character separator (keeps every empty piece,
as str::split does). Used to embed the splits in src/main.rs. -/
def splitOnChar (sep : Char) : List Char → List (List Char)
  | [] => [[]]
  | c :: rest =>
    if c = sep then [] :: splitOnChar sep rest
    else
      match splitOnChar sep rest with
      | [] => [[c]]
      | h :: t => (c :: h) :: t

/-- Rust str::split for the two-character separator ".." used by the
frame-range syntax of src/main.rs line 155. -/
def splitOnDots : List Char → List (List Char)
  | [] => [[]]
  | '.' :: '.' :: rest => [] :: splitOnDots rest
  | c :: rest =>
    match splitOnDots rest with
    | [] => [[c]]
    | h :: t => (c :: h) :: t

/-- Rust str::split_terminator: like split, but a trailing empty piece is
dropped (src/main.rs lines 148 and 155). -/
def splitTerminator (parts : List (List Char)) : List (List Char) :=
  match parts.getLast? with
  | some [] => parts.dropLast
  | _ => parts

/-- Rust str::parse::<usize> as used by the frame-set parser: an optional
leading plus sign, then one or more ASCII digits, no other characters, and
the value must fit in 64 bits (the failure is a parse error, modelled as
none). -/
def parseUsize (cs : List Char) : Option Nat :=
  let ds := match cs with
    | '+' :: rest => rest
    | _ => cs
  if ds = [] then none
  else if ds.all Char.isDigit then
    let n := ds.foldl (fun a c => a * 10 + (c.toNat - 48)) 0
    if n < 2 ^ 64 then some n else none
  else none

/-- Rust (start..=stop).collect::<Vec<_>>() : the inclusive range as an
ascending list, empty when stop < start (src/main.rs line 159). -/
def rangeIncl (start stop : Nat) : List Nat :=
  (List.range (stop + 1 - start)).map (fun i => start + i)

/-- One term of the frame-set descriptor (src/main.rs lines 149-161): a
term parsing as a usize is a singleton; otherwise it is split on "..",
pieces 0 and 1 are parsed (indexing or parse failure panics: none), and
the inclusive range is produced. -/
def parseTerm (cs : List Char) : Option (List Nat) :=
  match parseUsize cs with
  | some frame => some [frame]
  | none =>
    match splitTerminator (splitOnDots cs) with
    | p0 :: p1 :: _ =>
      match parseUsize p0, parseUsize p1 with
      | some start, some stop => some (rangeIncl start stop)
      | _, _ => none
    | _ => none

/-- The loop of src/main.rs lines 146-162: each comma-separated term's
frames are appended, in order, to one list; any term failure panics
(modelled as none). -/
def parseAllTerms : List (List Char) → Option (List Nat)
  | [] => some []
  | t :: ts =>
    match parseTerm t, parseAllTerms ts with
    | some l, some ls => some (l ++ ls)
    | _, _ => none

/-- Helper for Vec::dedup: drops elements equal to the running previous
element, keeping the first element of every run. -/
def dedupAfter (a : Nat) : List Nat → List Nat
  | [] => []
  | b :: rest => if a = b then dedupAfter a rest else b :: dedupAfter b rest

/-- Rust Vec::dedup (src/main.rs line 165): removes consecutive repeated
elements, keeping the first of each run. -/
def dedupConsec : List Nat → List Nat
  | [] => []
  | a :: rest => a :: dedupAfter a rest

/-- The comma-separated terms of a frame-set descriptor
(src/main.rs line 148: frames.split_terminator(',')). -/
def frameTerms (s : String) : List (List Char) :=
  splitTerminator (splitOnChar ',' s.toList)

/-- The frame list of src/main.rs lines 145-165 just after list.sort() and
list.dedup(): the parsed, ascending, duplicate-free sequence. The
subsequent list.reverse() of line 166 is framePool below. -/
def parsedFrames (s : String) : Option (List Nat) :=
  match parseAllTerms (frameTerms s) with
  | none => none
  | some l => some (dedupConsec (List.insertionSort (· ≤ ·) l))

/-- The frame pool stored in the Mutex by src/main.rs line 168: the parsed
sequence after the list.reverse() of line 166, so sorted descending. -/
def framePool (s : String) : Option (List Nat) :=
  (parsedFrames s).map List.reverse

/-- Rust Vec::pop as used on the frame pool (src/main.rs line 382):
removes and returns the last element, or none when the pool is empty. -/
def popNext (l : List Nat) : Option (Nat × List Nat) :=
  match l.getLast? with
  | none => none
  | some x => some (x, l.dropLast)

/-- Fuel-indexed iteration of popNext. -/
def popOrderAux : Nat → List Nat → List Nat
  | 0, _ => []
  | fuel + 1, l =>
    match popNext l with
    | none => []
    | some (x, rest) => x :: popOrderAux fuel rest

/-- The sequence of values successive Vec::pop calls return on a pool,
first popped first. -/
def popOrder (l : List Nat) : List Nat :=
  popOrderAux l.length l

/-- Denotation of one frame-set term, following the wording of the claim:
a singleton term denotes its value, a range term start..stop denotes the
inclusive interval. Used to compare parseTerm with the claimed union. -/
def termDenotes (x : Nat) (cs : List Char) : Bool :=
  match parseUsize cs with
  | some n => x == n
  | none =>
    match splitTerminator (splitOnDots cs) with
    | p0 :: p1 :: _ =>
      match parseUsize p0, parseUsize p1 with
      | some start, some stop => decide (start ≤ x) && decide (x ≤ stop)
      | _, _ => false
    | _ => false

/-- The filesystem visible to the service, as an association list from
path to file bytes; the most recent binding of a path is its content. -/
abbrev FileSys := List (String × List Nat)

/-- Content of a path: the most recent binding (std::fs::read). -/
def fsLookup (fs : FileSys) (path : String) : Option (List Nat) :=
  match fs with
  | [] => none
  | (p, v) :: rest => if p = path then some v else fsLookup rest path

/-- std::fs::write: create or truncate, so the new binding shadows any
older one. -/
def fsInsert (fs : FileSys) (path : String) (content : List Nat) : FileSys :=
  (path, content) :: fs

/-- std::fs::remove_file: every binding of the path is dropped. -/
def fsErase (fs : FileSys) (path : String) : FileSys :=
  match fs with
  | [] => []
  | (p, v) :: rest => if p = path then fsErase rest path else (p, v) :: fsErase rest path

/-- src/main.rs lines 56-60, struct FrameRequest: the framed message a
render requester sends after the Accept handshake; it carries the scene
id and the frame index. -/
structure FrameRequest where
  id : String
  frame : Nat
deriving DecidableEq

/-- src/main.rs lines 69-73, enum RenderAcceptResponse. The derive has no
serde tag attribute, so serde serialises it externally tagged. -/
inductive RenderAcceptResponse
  | accept
  | reject
deriving DecidableEq

/-- serde_json serialisation of RenderAcceptResponse: an externally tagged
unit variant is the bare JSON string of the variant name. -/
def renderAcceptJson : RenderAcceptResponse → String
  | RenderAcceptResponse.accept => "\"Accept\""
  | RenderAcceptResponse.reject => "\"Reject\""

/-- src/main.rs lines 75-79, enum RenderResponse: the render reply header
sent to the client, followed on the wire by size image bytes. -/
inductive RenderResponse
  | okay (size : Nat) (ext : String)
  | fail
deriving DecidableEq

/-- src/main.rs lines 94-103, enum BrpyRequest: the request the worker
writes to the render backend. -/
inductive BrpyRequest
  | render (blend : String) (frame : Nat) (output : String)
  | query
deriving DecidableEq

/-- src/main.rs lines 105-110, enum BrpyRenderResponse: the backend's
framed reply to a render request. -/
inductive BrpyRenderResponse
  | okay (image : String)
  | fail
deriving DecidableEq

/-- src/main.rs lines 88-92, struct ComputeDeviceList. -/
structure ComputeDeviceList where
  active : List String
  inactive : List String
deriving DecidableEq

/-- src/main.rs lines 81-86, struct QueryResponse. The [u8;3] version is
modelled as a triple of naturals. -/
structure QueryResponse where
  version : Nat × Nat × Nat
  compute_device_type : String
  devices : ComputeDeviceList
deriving DecidableEq

/-- Outcome of std::fs::create_dir as seen by the code: success (none),
ErrorKind::AlreadyExists, or any other error kind. -/
inductive DirError
  | alreadyExists
  | other
deriving DecidableEq

/-- src/main.rs lines 300 and 566: format!("anonymous/{0}/{0}.blend", hash),
the scene file path for a fingerprint, rendered in decimal. -/
def blendPath (hash : Nat) : String :=
  "anonymous/" ++ toString hash ++ "/" ++ toString hash ++ ".blend"

/-- src/main.rs lines 555 and 568: format!("anonymous/{}/render", hash),
the per-scene render output directory. -/
def renderDir (hash : Nat) : String :=
  "anonymous/" ++ toString hash ++ "/render"

/-- Rust Path::extension (src/main.rs line 578): the part of the final
path component after its last dot; none when the component has no dot or
only a leading dot. -/
def pathExtension (p : String) : Option String :=
  let name := ((splitOnChar '/' p.toList).getLastD [])
  match splitOnChar '.' name with
  | [] => none
  | [_] => none
  | first :: rest =>
    if first = [] ∧ rest.length = 1 then none
    else some (String.mk (rest.getLastD []))

/-- One event on a client session as seen by handle_client
(src/main.rs lines 281-362). readErr covers a short length-prefix read, a
short header read, a JSON parse failure and an unrecognised tag: all make
the unwraps of line 288 panic. A request event carries the parsed request
together with the environment's part of serving it: for upload, the blob
bytes read by read_exact (their length is the size field), the result of
create_dir for the scene directory, and whether the scene-file write
succeeds. -/
inductive SessionEvent
  | readErr
  | upload (id : String) (blob : List Nat) (dirResult : Option DirError) (writeOk : Bool)
  | render
  | delete
  | query
deriving DecidableEq

/-- A reply frame handle_client writes to the client: Response::Okay,
Response::Fail{message}, or the cached QueryResponse copy. -/
inductive Reply
  | okay
  | fail (message : String)
  | queryInfo (info : QueryResponse)
deriving DecidableEq

/-- How a handle_client invocation ends: still blocked reading the next
request (awaiting), a panic of the handler thread (panicked), the break
after one upload (closedAfterUpload), or the return of line 343 after
moving the connection into the render_requesters pool (handedToWorker). -/
inductive HOutcome
  | awaiting
  | panicked
  | closedAfterUpload
  | handedToWorker
deriving DecidableEq

/-- src/main.rs lines 281-362, fn handle_client: the per-session dispatch
loop, over the session's event stream. Returns the replies written, the
resulting filesystem, and how the handler ended. The read of line 288 is
unwrapped twice, so a framing or JSON error panics wherever it occurs; an
upload ignores its create_dir result (line 299, let _ =), replies from the
write result and breaks; a render request moves the connection to the
render_requesters pool and returns; delete is todo!() and panics; a query
replies with the cached info and loops. -/
def handle_client (hash : String → Nat) (info : QueryResponse) (fs : FileSys) :
    List SessionEvent → List Reply × FileSys × HOutcome
  | [] => ([], fs, HOutcome.awaiting)
  | SessionEvent.readErr :: _ => ([], fs, HOutcome.panicked)
  | SessionEvent.render :: _ => ([], fs, HOutcome.handedToWorker)
  | SessionEvent.delete :: _ => ([], fs, HOutcome.panicked)
  | SessionEvent.query :: rest =>
    let r := handle_client hash info fs rest
    (Reply.queryInfo info :: r.1, r.2.1, r.2.2)
  | SessionEvent.upload id blob _dirResult writeOk :: _ =>
    let h := hash id
    if writeOk then
      ([Reply.okay], fsInsert fs (blendPath h) blob, HOutcome.closedAfterUpload)
    else
      ([Reply.fail "Could not save file"], fs, HOutcome.closedAfterUpload)

/-- A render requester held in a render_requesters slot: the stream of its
future framed reads (none is a read_header error, some a parsed
FrameRequest; an exhausted list reads as end of stream, also an error),
and whether writes to it succeed. -/
structure Client where
  reads : List (Option FrameRequest)
  writeOk : Bool
deriving DecidableEq

/-- State of the worker_brpy thread (src/main.rs lines 504-612): the slot
cursor, the render_requesters vector, the stream of framed responses the
backend will produce, the outcomes of the create_dir calls for render
directories, and the filesystem. -/
structure WState where
  slot : Nat
  requesters : List (Option Client)
  brpyIn : List BrpyRenderResponse
  dirResults : List (Option DirError)
  fs : FileSys
deriving DecidableEq

/-- Observable events of one worker_brpy iteration, in program order. -/
inductive Event
  | acceptSent (slot : Nat)
  | readFrame (slot : Nat) (fr : FrameRequest)
  | writeBrpy (req : BrpyRequest)
  | readBrpy (resp : BrpyRenderResponse)
  | sentClient (slot : Nat) (header : RenderResponse) (data : List Nat)
  | discarded (slot : Nat)
  | unlink (path : String)
deriving DecidableEq

/-- The slot scan of src/main.rs lines 517-532: starting after the current
slot and wrapping, the first slot holding a requester; none when a full
lap finds only empty slots (the thread then waits on the condvar). -/
def findSlot (requesters : List (Option Client)) (old : Nat) : Option Nat :=
  (List.range requesters.length).map (fun j => (old + j + 1) % requesters.length)
    |>.find? (fun s => (requesters.getD s none).isSome)

/-- The BrpyRequest::Render the worker builds for a frame request
(src/main.rs lines 564-571): blend path, frame index and output directory
derived from the fingerprint of the scene id. -/
def brpyRenderReq (hash : String → Nat) (fr : FrameRequest) : BrpyRequest :=
  BrpyRequest.render (blendPath (hash fr.id)) fr.frame (renderDir (hash fr.id))

/-- src/main.rs lines 549-610: serving one successfully read FrameRequest.
create_dir of the render directory panics on any error other than
AlreadyExists (lines 555-562); the BrpyRequest::Render is written and one
framed backend response read (an exhausted backend stream blocks forever);
Fail is todo!() and panics; on Okay{image} a missing extension or an
unreadable image file panics, otherwise the image bytes are framed behind
RenderResponse::Okay and written to the requester, a failed write
discards the frame and clears the slot, and the image file is removed
either way (line 605, errors ignored). -/
def serveFrame (hash : String → Nat) (st : WState) (s : Nat) (client : Client)
    (fr : FrameRequest) (restReads : List (Option FrameRequest)) :
    List Event × Option WState :=
  let pre := [Event.acceptSent s, Event.readFrame s fr]
  match st.dirResults.headD none with
  | some DirError.other => (pre, none)
  | _ =>
    let req := brpyRenderReq hash fr
    match st.brpyIn with
    | [] => (pre ++ [Event.writeBrpy req], none)
    | resp :: brpyRest =>
      let evs := pre ++ [Event.writeBrpy req, Event.readBrpy resp]
      match resp with
      | BrpyRenderResponse.fail => (evs, none)
      | BrpyRenderResponse.okay image =>
        match pathExtension image, fsLookup st.fs image with
        | some ext, some data =>
          let out :=
            if client.writeOk then
              Event.sentClient s (RenderResponse.okay data.length ext) data
            else Event.discarded s
          let slotVal := if client.writeOk then some (Client.mk restReads client.writeOk) else none
          (evs ++ [out, Event.unlink image],
           some { slot := s,
                  requesters := st.requesters.set s slotVal,
                  brpyIn := brpyRest,
                  dirResults := st.dirResults.tail,
                  fs := fsErase st.fs image })
        | _, _ => (evs, none)

/-- One iteration of the worker_brpy loop (src/main.rs lines 511-611):
scan for a requester (none found: the thread blocks on the condvar, the
run ends); send RenderAcceptResponse::Accept (write result ignored,
line 535); read one framed FrameRequest (a read error clears the slot and
continues, lines 540-543); then serve the frame. The returned list is the
iteration's events; none as second component means the thread stopped
(blocked or panicked). -/
def worker_brpy_step (hash : String → Nat) (st : WState) : List Event × Option WState :=
  if st.requesters.length = 0 then ([], none)
  else
    match findSlot st.requesters st.slot with
    | none => ([], none)
    | some s =>
      match st.requesters.getD s none with
      | none => ([], none)
      | some client =>
        match client.reads with
        | [] =>
          ([Event.acceptSent s],
           some { st with slot := s, requesters := st.requesters.set s none })
        | none :: _ =>
          ([Event.acceptSent s],
           some { st with slot := s, requesters := st.requesters.set s none })
        | some fr :: restReads => serveFrame hash st s client fr restReads

/-- The worker_brpy loop run for a bounded number of iterations, returning
the accumulated event trace. The backend stream brpy is moved into this
single thread (src/main.rs line 256), so this trace is the entire traffic
the backend sees after the startup query. -/
def worker_brpy_run (hash : String → Nat) : Nat → WState → List Event
  | 0, _ => []
  | fuel + 1, st =>
    match worker_brpy_step hash st with
    | (evs, none) => evs
    | (evs, some st') => evs ++ worker_brpy_run hash fuel st'

/-- Backend-facing events. -/
inductive BEvent
  | write (req : BrpyRequest)
  | read (resp : BrpyRenderResponse)
deriving DecidableEq

/-- Projection of a worker event onto the backend connection. -/
def backendEvent : Event → Option BEvent
  | Event.writeBrpy req => some (BEvent.write req)
  | Event.readBrpy resp => some (BEvent.read resp)
  | _ => none

/-- The subtrace of a worker trace that travels on the backend
connection. -/
def backendEvents (l : List Event) : List BEvent :=
  l.filterMap backendEvent

/-- Traces in which every request written to the backend is answered
before the next one is written: a sequence of write/read pairs, possibly
ending in one unanswered write. -/
inductive WriteReadAlt : List BEvent → Prop
  | nil : WriteReadAlt []
  | lastWrite (req : BrpyRequest) : WriteReadAlt [BEvent.write req]
  | pair (req : BrpyRequest) (resp : BrpyRenderResponse) (l : List BEvent) :
      WriteReadAlt l → WriteReadAlt (BEvent.write req :: BEvent.read resp :: l)

/-- Whether an event is the worker reading a FrameRequest from a
requester. -/
def isFrameRead : Event → Bool
  | Event.readFrame _ _ => true
  | _ => false

/-- Traces in which every FrameRequest read from a requester is
immediately preceded by the Accept message sent to that same requester. -/
inductive HandshakeOK : List Event → Prop
  | nil : HandshakeOK []
  | skip (e : Event) (l : List Event) :
      isFrameRead e = false → HandshakeOK l → HandshakeOK (e :: l)
  | pair (s : Nat) (fr : FrameRequest) (l : List Event) :
      HandshakeOK l → HandshakeOK (Event.acceptSent s :: Event.readFrame s fr :: l)

/-- Constant fingerprint function: concrete instantiations only, the
theorems quantify over the hash. -/
def hashZero : String → Nat := fun _ => 0

/-- Concrete cached capability record, for concrete instantiations. -/
def infoSample : QueryResponse :=
  { version := (4, 2, 1), compute_device_type := "OPTIX",
    devices := { active := ["GPU0"], inactive := [] } }

/-- Concrete render requester with one pending frame request. -/
def clientSample : Client :=
  { reads := [some { id := "scene-A", frame := 1 }], writeOk := true }

/-- Concrete backend-produced image path. -/
def imageSample : String := "anonymous/0/render/0001.png"

/-- Concrete worker state: one requester, one Okay backend response, the
image on disk. -/
def wstSample : WState :=
  { slot := 0, requesters := [some clientSample],
    brpyIn := [BrpyRenderResponse.okay imageSample],
    dirResults := [none], fs := [(imageSample, [9, 9, 9])] }

/-- Concrete requester whose next framed read errors. -/
def clientReadErr : Client := { reads := [none], writeOk := true }

/-- Concrete worker state holding clientReadErr. -/
def wstReadErr : WState :=
  { slot := 0, requesters := [some clientReadErr], brpyIn := [],
    dirResults := [], fs := [] }

theorem mem_rangeIncl {x start stop : Nat} :
    x ∈ rangeIncl start stop ↔ start ≤ x ∧ x ≤ stop := by
  unfold rangeIncl
  simp only [List.mem_map, List.mem_range]
  constructor
  · rintro ⟨i, hi, rfl⟩; omega
  · rintro ⟨h1, h2⟩; exact ⟨x - start, by omega, by omega⟩

theorem parseAllTerms_isSome {ts : List (List Char)}
    (h : ∀ t ∈ ts, (parseTerm t).isSome) : ∃ L, parseAllTerms ts = some L := by
  induction ts with
  | nil => exact ⟨[], rfl⟩
  | cons t ts ih =>
    obtain ⟨L, hL⟩ := ih (fun t' ht' => h t' (List.mem_cons_of_mem _ ht'))
    obtain ⟨lt, hlt⟩ := Option.isSome_iff_exists.mp (h t (List.mem_cons_self _ _))
    exact ⟨lt ++ L, by simp [parseAllTerms, hlt, hL]⟩

theorem parseAllTerms_mem {ts : List (List Char)} {L : List Nat}
    (h : parseAllTerms ts = some L) :
    ∀ x, x ∈ L ↔ ∃ t ∈ ts, ∃ lt, parseTerm t = some lt ∧ x ∈ lt := by
  induction ts generalizing L with
  | nil =>
    simp only [parseAllTerms, Option.some.injEq] at h
    subst h; simp
  | cons t ts ih =>
    intro x
    cases hpt : parseTerm t with
    | none =>
      simp only [parseAllTerms, hpt] at h
      exact Option.noConfusion h
    | some lt =>
      cases hall : parseAllTerms ts with
      | none =>
        simp only [parseAllTerms, hpt, hall] at h
        exact Option.noConfusion h
      | some L' =>
        simp only [parseAllTerms, hpt, hall, Option.some.injEq] at h
        subst h
        simp only [List.mem_append, ih hall x, List.mem_cons]
        constructor
        · rintro (hx | ⟨t', ht', lt', hlt', hx⟩)
          · exact ⟨t, Or.inl rfl, lt, hpt, hx⟩
          · exact ⟨t', Or.inr ht', lt', hlt', hx⟩
        · rintro ⟨t', ht' | ht', lt', hlt', hx⟩
          · subst ht'; rw [hpt] at hlt'; cases hlt'; exact Or.inl hx
          · exact Or.inr ⟨t', ht', lt', hlt', hx⟩

theorem mem_cons_dedupAfter {x : Nat} :
    ∀ {l : List Nat} {a : Nat}, x ∈ a :: dedupAfter a l ↔ x ∈ a :: l := by
  intro l
  induction l with
  | nil => intro a; simp [dedupAfter]
  | cons b rest ih =>
    intro a
    unfold dedupAfter
    by_cases hab : a = b
    · rw [if_pos hab]; subst hab
      rw [ih]
      simp [List.mem_cons]
    · rw [if_neg hab]
      have hb := @ih b
      simp only [List.mem_cons] at hb ⊢
      tauto

theorem mem_dedupConsec {x : Nat} {l : List Nat} : x ∈ dedupConsec l ↔ x ∈ l := by
  cases l with
  | nil => simp [dedupConsec]
  | cons a rest => exact mem_cons_dedupAfter

theorem chain_dedupAfter :
    ∀ {l : List Nat} {a : Nat}, List.Chain' (· ≤ ·) (a :: l) →
      List.Chain' (· < ·) (a :: dedupAfter a l) := by
  intro l
  induction l with
  | nil => intro a _; simp [dedupAfter]
  | cons b rest ih =>
    intro a h
    rw [List.chain'_cons] at h
    obtain ⟨hab, hrest⟩ := h
    unfold dedupAfter
    by_cases he : a = b
    · rw [if_pos he]; subst he; exact ih hrest
    · rw [if_neg he]
      rw [List.chain'_cons]
      exact ⟨lt_of_le_of_ne hab he, ih hrest⟩

theorem chain_dedupConsec {l : List Nat} (h : List.Chain' (· ≤ ·) l) :
    List.Chain' (· < ·) (dedupConsec l) := by
  cases l with
  | nil => simp [dedupConsec]
  | cons a rest => exact chain_dedupAfter h

theorem parsedFrames_spec {s : String} {l : List Nat} (h : parsedFrames s = some l) :
    List.Chain' (· < ·) l ∧
      ∀ x, x ∈ l ↔ ∃ t ∈ frameTerms s, ∃ lt, parseTerm t = some lt ∧ x ∈ lt := by
  unfold parsedFrames at h
  cases hall : parseAllTerms (frameTerms s) with
  | none => rw [hall] at h; cases h
  | some L =>
    rw [hall] at h
    injection h with h
    subst h
    refine ⟨chain_dedupConsec (List.sorted_insertionSort (· ≤ ·) L).chain', ?_⟩
    intro x
    rw [mem_dedupConsec, (List.perm_insertionSort (· ≤ ·) L).mem_iff]
    exact parseAllTerms_mem hall x

theorem parseTerm_denotes {t : List Char} {lt : List Nat}
    (h : parseTerm t = some lt) : ∀ x, x ∈ lt ↔ termDenotes x t = true := by
  intro x
  cases hp : parseUsize t with
  | some n =>
    simp only [parseTerm, hp, Option.some.injEq] at h
    subst h
    simp only [termDenotes, hp, List.mem_singleton, beq_iff_eq]
  | none =>
    cases hsp : splitTerminator (splitOnDots t) with
    | nil =>
      simp only [parseTerm, hp, hsp] at h
      exact Option.noConfusion h
    | cons p0 ps =>
      cases ps with
      | nil =>
        simp only [parseTerm, hp, hsp] at h
        exact Option.noConfusion h
      | cons p1 rest =>
        cases h0 : parseUsize p0 with
        | none =>
          simp only [parseTerm, hp, hsp, h0] at h
          exact Option.noConfusion h
        | some a =>
          cases h1 : parseUsize p1 with
          | none =>
            simp only [parseTerm, hp, hsp, h0, h1] at h
            exact Option.noConfusion h
          | some b =>
            simp only [parseTerm, hp, hsp, h0, h1, Option.some.injEq] at h
            subst h
            simp only [termDenotes, hp, hsp, h0, h1]
            rw [mem_rangeIncl]
            simp

theorem popOrderAux_eq_reverse :
    ∀ (fuel : Nat) (l : List Nat), l.length ≤ fuel → popOrderAux fuel l = l.reverse := by
  intro fuel
  induction fuel with
  | zero =>
    intro l hl
    rw [Nat.le_zero, List.length_eq_zero] at hl
    subst hl; rfl
  | succ n ih =>
    intro l hl
    rcases List.eq_nil_or_concat l with rfl | ⟨ys, b, rfl⟩
    · rfl
    · rw [List.concat_eq_append] at hl ⊢
      simp only [popOrderAux, popNext, List.getLast?_concat, List.dropLast_concat]
      rw [ih ys (by simp at hl; omega)]
      simp

theorem popOrder_eq_reverse (l : List Nat) : popOrder l = l.reverse :=
  popOrderAux_eq_reverse l.length l le_rfl

/-- Claim C4: encoding any payload of at most 65535 bytes with the
two-byte little-endian length prefix (to_header) and decoding the
resulting stream (read_header) returns exactly the original payload,
leaving any trailing stream bytes unconsumed. -/
theorem framing_roundtrip (payload tail : List Nat) (h : payload.length ≤ 65535) :
    ∃ wire, to_header payload = some wire ∧
      read_header (wire ++ tail) = some (payload, tail) := by
  refine ⟨payload.length % 256 :: payload.length / 256 :: payload, ?_, ?_⟩
  · unfold to_header
    rw [if_pos (by omega)]
  · show read_header (payload.length % 256 :: payload.length / 256 :: (payload ++ tail)) = _
    unfold read_header
    have hlen : payload.length % 256 + 256 * (payload.length / 256) = payload.length :=
      Nat.mod_add_div _ _
    simp only [hlen]
    rw [if_pos (by simp)]
    rw [List.take_left, List.drop_left]

/-- Witness for framing_roundtrip at the payload [1, 2, 3] with trailing
stream [7]. -/
theorem framing_roundtrip_witness :
    ([1, 2, 3] : List Nat).length ≤ 65535 ∧
      ∃ wire, to_header [1, 2, 3] = some wire ∧
        read_header (wire ++ [7]) = some ([1, 2, 3], [7]) :=
  ⟨by decide, framing_roundtrip [1, 2, 3] [7] (by decide)⟩

/-- Claim C5: for every frame-set input all of whose comma-separated terms
parse (as a usize singleton or a start..end range), the parsed sequence
(the list of src/main.rs line 165, after sort and dedup) is strictly
ascending, duplicate-free, and contains exactly the union of the denoted
singletons and inclusive ranges. -/
theorem frameset_parse_spec (s : String)
    (hvalid : ∀ t ∈ frameTerms s, (parseTerm t).isSome) :
    ∃ l, parsedFrames s = some l ∧ List.Chain' (· < ·) l ∧ l.Nodup ∧
      ∀ x, x ∈ l ↔ ∃ t ∈ frameTerms s, termDenotes x t = true := by
  obtain ⟨L, hL⟩ := parseAllTerms_isSome hvalid
  have hsome : parsedFrames s = some (dedupConsec (List.insertionSort (· ≤ ·) L)) := by
    unfold parsedFrames
    rw [hL]
  obtain ⟨hchain, hmem⟩ := parsedFrames_spec hsome
  refine ⟨_, hsome, hchain, ?_, ?_⟩
  · exact ((List.chain'_iff_pairwise).mp hchain).imp Nat.ne_of_lt
  · intro x
    rw [hmem x]
    constructor
    · rintro ⟨t, ht, lt, hlt, hx⟩
      exact ⟨t, ht, (parseTerm_denotes hlt x).mp hx⟩
    · rintro ⟨t, ht, hden⟩
      obtain ⟨lt, hlt⟩ := Option.isSome_iff_exists.mp (hvalid t ht)
      exact ⟨t, ht, lt, hlt, (parseTerm_denotes hlt x).mpr hden⟩

/-- Witness for frameset_parse_spec at the input "7,1..3,5,2..2" from the
specification's own example. -/
theorem frameset_parse_spec_witness :
    (∀ t ∈ frameTerms "7,1..3,5,2..2", (parseTerm t).isSome) ∧
      ∃ l, parsedFrames "7,1..3,5,2..2" = some l ∧ List.Chain' (· < ·) l ∧ l.Nodup ∧
        ∀ x, x ∈ l ↔ ∃ t ∈ frameTerms "7,1..3,5,2..2", termDenotes x t = true :=
  ⟨by decide, frameset_parse_spec _ (by decide)⟩

/-- Claim C3, counterexample: on the specification's own example input the
constructed pool is the descending list [7, 5, 3, 2, 1] (sort, dedup, then
reverse), and since Vec::pop removes the last element the pops yield
1, 2, 3, 5, 7 - not 7, 5, 3, 2, 1; the first pop returns 1, the smallest
frame, not the largest. -/
theorem framePool_pop_counterexample :
    framePool "7,1..3,5,2..2" = some [7, 5, 3, 2, 1] ∧
      popOrder [7, 5, 3, 2, 1] = [1, 2, 3, 5, 7] ∧
      popOrder [7, 5, 3, 2, 1] ≠ [7, 5, 3, 2, 1] ∧
      popNext [7, 5, 3, 2, 1] = some (1, [7, 5, 3, 2]) := by decide

/-- Claim C3, amended: the constructed frame pool is sorted descending,
so each pop (from the end) removes the smallest remaining frame, the pop
sequence is strictly increasing, and for the input "7,1..3,5,2..2" the
pool yields frames in the order 1, 2, 3, 5, 7. -/
theorem framePool_pop_amended (s : String) (l : List Nat)
    (h : framePool s = some l) :
    List.Chain' (· > ·) l ∧ popOrder l = l.reverse ∧
      List.Chain' (· < ·) (popOrder l) ∧
      ∀ m rest, popNext l = some (m, rest) → ∀ x ∈ l, m ≤ x := by
  unfold framePool at h
  cases hp : parsedFrames s with
  | none => rw [hp] at h; cases h
  | some pf =>
    rw [hp] at h
    simp only [Option.map_some'] at h  -- hmm name
    injection h with h
    subst h
    have hchain := (parsedFrames_spec hp).1
    refine ⟨?_, popOrder_eq_reverse _, ?_, ?_⟩
    · rw [List.chain'_reverse]
      exact hchain
    · rw [popOrder_eq_reverse, List.reverse_reverse]
      exact hchain
    · intro m rest hpop x hx
      unfold popNext at hpop
      cases hlast : (pf.reverse).getLast? with
      | none =>
        rw [hlast] at hpop
        exact Option.noConfusion hpop
      | some y =>
        rw [hlast] at hpop
        simp only [Option.some.injEq, Prod.mk.injEq] at hpop
        obtain ⟨rfl, -⟩ := hpop
        rw [List.getLast?_reverse] at hlast
        rw [List.mem_reverse] at hx
        cases pf with
        | nil => cases hlast
        | cons p0 tail =>
          simp only [List.head?_cons, Option.some.injEq] at hlast
          subst hlast
          have hpw := (List.chain'_iff_pairwise).mp hchain
          rw [List.pairwise_cons] at hpw
          rcases List.mem_cons.mp hx with rfl | hx'
          · exact le_rfl
          · exact le_of_lt (hpw.1 x hx')

/-- Witness for framePool_pop_amended at the input "7,1..3,5,2..2". -/
theorem framePool_pop_amended_witness :
    framePool "7,1..3,5,2..2" = some [7, 5, 3, 2, 1] ∧
      (List.Chain' (· > ·) [7, 5, 3, 2, 1] ∧
        popOrder [7, 5, 3, 2, 1] = [7, 5, 3, 2, 1].reverse ∧
        List.Chain' (· < ·) (popOrder [7, 5, 3, 2, 1]) ∧
        ∀ m rest, popNext [7, 5, 3, 2, 1] = some (m, rest) →
          ∀ x ∈ [7, 5, 3, 2, 1], m ≤ x) :=
  ⟨by decide, framePool_pop_amended "7,1..3,5,2..2" [7, 5, 3, 2, 1] (by decide)⟩

theorem getD_set_self {α : Type} :
    ∀ (l : List (Option α)) (s : Nat) (v : Option α), s < l.length →
      (l.set s v).getD s none = v := by
  intro l
  induction l with
  | nil => intro s v h; exact absurd h (Nat.not_lt_zero s)
  | cons a t ih =>
    intro s v h
    cases s with
    | zero => rfl
    | succ n => exact ih n v (Nat.lt_of_succ_lt_succ h)

theorem slot_lt_of_getD {α : Type} :
    ∀ {l : List (Option α)} {s : Nat} {c : α}, l.getD s none = some c → s < l.length := by
  intro l
  induction l with
  | nil => intro s c h; exact Option.noConfusion h
  | cons a t ih =>
    intro s c h
    cases s with
    | zero => exact Nat.succ_pos _
    | succ n => exact Nat.succ_lt_succ (ih h)

theorem fsLookup_fsErase (fs : FileSys) (p : String) :
    fsLookup (fsErase fs p) p = none := by
  induction fs with
  | nil => rfl
  | cons kv rest ih =>
    obtain ⟨k, v⟩ := kv
    unfold fsErase
    by_cases h : k = p
    · rw [if_pos h]; exact ih
    · rw [if_neg h]
      unfold fsLookup
      rw [if_neg h]
      exact ih

theorem requesters_nonempty {st : WState} {s : Nat} {client : Client}
    (h3 : st.requesters.getD s none = some client) : ¬st.requesters.length = 0 := by
  intro hz
  exact absurd (slot_lt_of_getD h3) (by omega)

theorem worker_step_serve (hash : String → Nat) (st : WState) (s : Nat)
    (client : Client) (fr : FrameRequest) (restReads : List (Option FrameRequest))
    (h2 : findSlot st.requesters st.slot = some s)
    (h3 : st.requesters.getD s none = some client)
    (h4 : client.reads = some fr :: restReads) :
    worker_brpy_step hash st = serveFrame hash st s client fr restReads := by
  have hne := requesters_nonempty h3
  simp only [worker_brpy_step, if_neg hne, h2, h3, h4]

theorem serveFrame_okay (hash : String → Nat) (st : WState) (s : Nat)
    (client : Client) (fr : FrameRequest) (restReads : List (Option FrameRequest))
    (image : String) (brpyRest : List BrpyRenderResponse) (ext : String) (data : List Nat)
    (h5 : st.dirResults.headD none ≠ some DirError.other)
    (h6 : st.brpyIn = BrpyRenderResponse.okay image :: brpyRest)
    (h7 : pathExtension image = some ext)
    (h8 : fsLookup st.fs image = some data) :
    serveFrame hash st s client fr restReads =
      ([Event.acceptSent s, Event.readFrame s fr,
        Event.writeBrpy (brpyRenderReq hash fr),
        Event.readBrpy (BrpyRenderResponse.okay image),
        (if client.writeOk then
          Event.sentClient s (RenderResponse.okay data.length ext) data
         else Event.discarded s),
        Event.unlink image],
       some { slot := s,
              requesters := st.requesters.set s
                (if client.writeOk then some (Client.mk restReads client.writeOk) else none),
              brpyIn := brpyRest,
              dirResults := st.dirResults.tail,
              fs := fsErase st.fs image }) := by
  cases hd : st.dirResults.headD none with
  | none =>
    simp only [serveFrame, hd, h6, h7, h8, List.cons_append, List.nil_append]
  | some de =>
    cases de with
    | alreadyExists =>
      simp only [serveFrame, hd, h6, h7, h8, List.cons_append, List.nil_append]
    | other => exact absurd hd h5

theorem worker_step_read_error (hash : String → Nat) (st : WState) (s : Nat)
    (client : Client)
    (h2 : findSlot st.requesters st.slot = some s)
    (h3 : st.requesters.getD s none = some client)
    (h4 : client.reads.headD none = none) :
    worker_brpy_step hash st =
      ([Event.acceptSent s],
       some { st with slot := s, requesters := st.requesters.set s none }) := by
  have hne := requesters_nonempty h3
  cases hr : client.reads with
  | nil => simp only [worker_brpy_step, if_neg hne, h2, h3, hr]
  | cons r rest =>
    cases r with
    | none => simp only [worker_brpy_step, if_neg hne, h2, h3, hr]
    | some fr =>
      simp only [hr, List.headD_cons] at h4
      exact Option.noConfusion h4

/-- Claim C1, counterexample: the code's Request::Render variant carries
no fields and the handler does not return to dispatch after a render
request. Concretely, a session sending Render and then Query ends in
handedToWorker with the query never dispatched and no reply produced,
whereas the same Query alone is answered; so after Render the session
does not return to dispatch able to serve further query requests. -/
theorem render_dispatch_counterexample :
    handle_client hashZero infoSample [] [SessionEvent.render, SessionEvent.query] =
      ([], [], HOutcome.handedToWorker) ∧
    handle_client hashZero infoSample [] [SessionEvent.query] =
      ([Reply.queryInfo infoSample], [], HOutcome.awaiting) ∧
    ([] : List Reply) ≠ [Reply.queryInfo infoSample] := by decide

/-- Claim C1, amended: a render exchange begins with a bare Render request
(no id or frame fields); handle_client moves the connection into the
render_requesters pool and returns, so the session never comes back to the
dispatch loop. The worker thread then sends Accept and reads a separate
FrameRequest carrying the scene id and the frame index, and after a
successfully answered exchange the connection stays registered in its
slot, so the session can serve further frame requests (but no other
request kinds). -/
theorem render_exchange_amended :
    (∀ (hash : String → Nat) (info : QueryResponse) (fs : FileSys)
        (rest : List SessionEvent),
      handle_client hash info fs (SessionEvent.render :: rest) =
        ([], fs, HOutcome.handedToWorker)) ∧
    (∀ (hash : String → Nat) (st : WState) (s : Nat) (client : Client)
        (fr : FrameRequest) (restReads : List (Option FrameRequest))
        (image : String) (brpyRest : List BrpyRenderResponse) (ext : String)
        (data : List Nat),
      findSlot st.requesters st.slot = some s →
      st.requesters.getD s none = some client →
      client.reads = some fr :: restReads →
      st.dirResults.headD none ≠ some DirError.other →
      st.brpyIn = BrpyRenderResponse.okay image :: brpyRest →
      pathExtension image = some ext →
      fsLookup st.fs image = some data →
      client.writeOk = true →
      (∃ tail, (worker_brpy_step hash st).1 =
          Event.acceptSent s :: Event.readFrame s fr :: tail) ∧
        ∃ st', (worker_brpy_step hash st).2 = some st' ∧
          st'.requesters.getD s none = some (Client.mk restReads true)) := by
  constructor
  · intro hash info fs rest
    rfl
  · intro hash st s client fr restReads image brpyRest ext data h2 h3 h4 h5 h6 h7 h8 h9
    have hstep := worker_step_serve hash st s client fr restReads h2 h3 h4
    have hserve := serveFrame_okay hash st s client fr restReads image brpyRest ext data
      h5 h6 h7 h8
    rw [hserve] at hstep
    rw [hstep]
    refine ⟨⟨_, rfl⟩, _, rfl, ?_⟩
    rw [h9]
    simp only [if_true]
    exact getD_set_self _ _ _ (slot_lt_of_getD h3)

/-- Witness for render_exchange_amended: the dispatch part at a concrete
session and the worker part at the concrete state wstSample. -/
theorem render_exchange_amended_witness :
    handle_client hashZero infoSample [] [SessionEvent.render] =
      ([], [], HOutcome.handedToWorker) ∧
    ((∃ tail, (worker_brpy_step hashZero wstSample).1 =
        Event.acceptSent 0 :: Event.readFrame 0 { id := "scene-A", frame := 1 } :: tail) ∧
      ∃ st', (worker_brpy_step hashZero wstSample).2 = some st' ∧
        st'.requesters.getD 0 none = some (Client.mk [] true)) :=
  ⟨render_exchange_amended.1 hashZero infoSample [] [],
   render_exchange_amended.2 hashZero wstSample 0 clientSample
     { id := "scene-A", frame := 1 } [] imageSample [] "png" [9, 9, 9]
     (by decide) (by decide) rfl (by decide) rfl (by decide) (by decide) rfl⟩

/-- Claim C2, counterexample: a framing or JSON error after a successful
request is not treated as a clean disconnect. Concretely, a session that
completes one Query and then suffers a read error ends in panicked (the
unwraps of src/main.rs line 288 fire regardless of any earlier success),
which is not the clean awaiting outcome. -/
theorem read_error_counterexample :
    handle_client hashZero infoSample [] [SessionEvent.query, SessionEvent.readErr] =
      ([Reply.queryInfo infoSample], [], HOutcome.panicked) ∧
    HOutcome.panicked ≠ HOutcome.awaiting := by decide

/-- Claim C2, amended: every framing or JSON error on handle_client's
request read panics the handler, before and equally after a successful
request; only a connection already handed to the render worker has its
read errors treated as a client disconnect: the worker clears the slot
and continues with the next requester instead of panicking. -/
theorem read_error_handling_amended :
    (∀ (hash : String → Nat) (info : QueryResponse) (fs : FileSys)
        (rest : List SessionEvent),
      handle_client hash info fs (SessionEvent.readErr :: rest) =
        ([], fs, HOutcome.panicked)) ∧
    (∀ (hash : String → Nat) (info : QueryResponse) (fs : FileSys)
        (rest : List SessionEvent),
      handle_client hash info fs (SessionEvent.query :: SessionEvent.readErr :: rest) =
        ([Reply.queryInfo info], fs, HOutcome.panicked)) ∧
    (∀ (hash : String → Nat) (st : WState) (s : Nat) (client : Client),
      findSlot st.requesters st.slot = some s →
      st.requesters.getD s none = some client →
      client.reads.headD none = none →
      worker_brpy_step hash st =
        ([Event.acceptSent s],
         some { st with slot := s, requesters := st.requesters.set s none })) := by
  refine ⟨fun hash info fs rest => rfl, fun hash info fs rest => rfl, ?_⟩
  intro hash st s client h2 h3 h4
  exact worker_step_read_error hash st s client h2 h3 h4

/-- Witness for read_error_handling_amended at a concrete session and at
the concrete worker state wstReadErr. -/
theorem read_error_handling_amended_witness :
    handle_client hashZero infoSample [] [SessionEvent.readErr] =
      ([], [], HOutcome.panicked) ∧
    handle_client hashZero infoSample [] [SessionEvent.query, SessionEvent.readErr] =
      ([Reply.queryInfo infoSample], [], HOutcome.panicked) ∧
    worker_brpy_step hashZero wstReadErr =
      ([Event.acceptSent 0],
       some { wstReadErr with slot := 0, requesters := wstReadErr.requesters.set 0 none }) :=
  ⟨read_error_handling_amended.1 hashZero infoSample [] [],
   read_error_handling_amended.2.1 hashZero infoSample [] [],
   read_error_handling_amended.2.2 hashZero wstReadErr 0 clientReadErr
     (by decide) (by decide) rfl⟩

/-- Claim C6: an upload of id with blob bytes replies Okay and leaves the
blob as the exact content of anonymous/(hash id)/(hash id).blend when the
write succeeds, replies Fail with message "Could not save file" when the
write fails (instead of panicking), and in both cases the session closes
after this one upload. The fingerprint is std's DefaultHasher, library
code outside this repository, so the statement quantifies over the hash
function. -/
theorem upload_session (hash : String → Nat) (info : QueryResponse) (fs : FileSys)
    (id : String) (blob : List Nat) (dirResult : Option DirError) (writeOk : Bool)
    (rest : List SessionEvent) :
    handle_client hash info fs (SessionEvent.upload id blob dirResult writeOk :: rest) =
      ((if writeOk then [Reply.okay] else [Reply.fail "Could not save file"]),
        (if writeOk then fsInsert fs (blendPath (hash id)) blob else fs),
        HOutcome.closedAfterUpload) ∧
    fsLookup (fsInsert fs (blendPath (hash id)) blob) (blendPath (hash id)) = some blob := by
  constructor
  · cases writeOk <;> simp [handle_client]
  · simp [fsLookup, fsInsert]

/-- Claim C10: the upload path discards the result of creating
anonymous/(hash id)/ entirely (src/main.rs line 299, let _ =), so the
handler behaves identically for every directory-creation outcome
(success, AlreadyExists, or any other error), never panics at that step,
and the reply is determined solely by the subsequent file write. -/
theorem upload_dir_error_ignored (hash : String → Nat) (info : QueryResponse)
    (fs : FileSys) (id : String) (blob : List Nat) (d1 d2 : Option DirError)
    (writeOk : Bool) (rest : List SessionEvent) :
    handle_client hash info fs (SessionEvent.upload id blob d1 writeOk :: rest) =
      handle_client hash info fs (SessionEvent.upload id blob d2 writeOk :: rest) ∧
    (handle_client hash info fs (SessionEvent.upload id blob d1 writeOk :: rest)).2.2 =
      HOutcome.closedAfterUpload ∧
    (handle_client hash info fs (SessionEvent.upload id blob d1 writeOk :: rest)).1 =
      (if writeOk then [Reply.okay] else [Reply.fail "Could not save file"]) := by
  refine ⟨rfl, ?_, ?_⟩ <;> cases writeOk <;> simp [handle_client]

theorem backendEvents_append (l1 l2 : List Event) :
    backendEvents (l1 ++ l2) = backendEvents l1 ++ backendEvents l2 :=
  List.filterMap_append l1 l2 backendEvent


theorem serveFrame_dir_panic (hash : String → Nat) (st : WState) (s : Nat)
    (client : Client) (fr : FrameRequest) (restReads : List (Option FrameRequest))
    (hd : st.dirResults.headD none = some DirError.other) :
    serveFrame hash st s client fr restReads =
      ([Event.acceptSent s, Event.readFrame s fr], none) := by
  simp only [serveFrame, hd]

theorem serveFrame_blocked (hash : String → Nat) (st : WState) (s : Nat)
    (client : Client) (fr : FrameRequest) (restReads : List (Option FrameRequest))
    (h5 : st.dirResults.headD none ≠ some DirError.other)
    (hb : st.brpyIn = []) :
    serveFrame hash st s client fr restReads =
      ([Event.acceptSent s, Event.readFrame s fr,
        Event.writeBrpy (brpyRenderReq hash fr)], none) := by
  cases hd : st.dirResults.headD none with
  | none => simp only [serveFrame, hd, hb, List.cons_append, List.nil_append]
  | some de =>
    cases de with
    | alreadyExists => simp only [serveFrame, hd, hb, List.cons_append, List.nil_append]
    | other => exact absurd hd h5

theorem serveFrame_fail (hash : String → Nat) (st : WState) (s : Nat)
    (client : Client) (fr : FrameRequest) (restReads : List (Option FrameRequest))
    (brpyRest : List BrpyRenderResponse)
    (h5 : st.dirResults.headD none ≠ some DirError.other)
    (hb : st.brpyIn = BrpyRenderResponse.fail :: brpyRest) :
    serveFrame hash st s client fr restReads =
      ([Event.acceptSent s, Event.readFrame s fr,
        Event.writeBrpy (brpyRenderReq hash fr),
        Event.readBrpy BrpyRenderResponse.fail], none) := by
  cases hd : st.dirResults.headD none with
  | none => simp only [serveFrame, hd, hb, List.cons_append, List.nil_append]
  | some de =>
    cases de with
    | alreadyExists => simp only [serveFrame, hd, hb, List.cons_append, List.nil_append]
    | other => exact absurd hd h5

theorem serveFrame_no_ext (hash : String → Nat) (st : WState) (s : Nat)
    (client : Client) (fr : FrameRequest) (restReads : List (Option FrameRequest))
    (image : String) (brpyRest : List BrpyRenderResponse)
    (h5 : st.dirResults.headD none ≠ some DirError.other)
    (hb : st.brpyIn = BrpyRenderResponse.okay image :: brpyRest)
    (h7 : pathExtension image = none) :
    serveFrame hash st s client fr restReads =
      ([Event.acceptSent s, Event.readFrame s fr,
        Event.writeBrpy (brpyRenderReq hash fr),
        Event.readBrpy (BrpyRenderResponse.okay image)], none) := by
  cases hd : st.dirResults.headD none with
  | none => simp only [serveFrame, hd, hb, h7, List.cons_append, List.nil_append]
  | some de =>
    cases de with
    | alreadyExists => simp only [serveFrame, hd, hb, h7, List.cons_append, List.nil_append]
    | other => exact absurd hd h5

theorem serveFrame_no_read (hash : String → Nat) (st : WState) (s : Nat)
    (client : Client) (fr : FrameRequest) (restReads : List (Option FrameRequest))
    (image : String) (brpyRest : List BrpyRenderResponse) (ext : String)
    (h5 : st.dirResults.headD none ≠ some DirError.other)
    (hb : st.brpyIn = BrpyRenderResponse.okay image :: brpyRest)
    (h7 : pathExtension image = some ext)
    (h8 : fsLookup st.fs image = none) :
    serveFrame hash st s client fr restReads =
      ([Event.acceptSent s, Event.readFrame s fr,
        Event.writeBrpy (brpyRenderReq hash fr),
        Event.readBrpy (BrpyRenderResponse.okay image)], none) := by
  cases hd : st.dirResults.headD none with
  | none => simp only [serveFrame, hd, hb, h7, h8, List.cons_append, List.nil_append]
  | some de =>
    cases de with
    | alreadyExists =>
      simp only [serveFrame, hd, hb, h7, h8, List.cons_append, List.nil_append]
    | other => exact absurd hd h5

theorem serveFrame_backend_shape_aux (hash : String → Nat) (st : WState) (s : Nat)
    (client : Client) (fr : FrameRequest) (restReads : List (Option FrameRequest))
    (h5 : st.dirResults.headD none ≠ some DirError.other) :
    backendEvents (serveFrame hash st s client fr restReads).1 = [] ∨
    (∃ req resp, backendEvents (serveFrame hash st s client fr restReads).1 =
      [BEvent.write req, BEvent.read resp]) ∨
    (∃ req, backendEvents (serveFrame hash st s client fr restReads).1 = [BEvent.write req] ∧
      (serveFrame hash st s client fr restReads).2 = none) := by
  cases hb : st.brpyIn with
  | nil =>
    refine Or.inr (Or.inr ⟨brpyRenderReq hash fr, ?_, ?_⟩)
    · rw [serveFrame_blocked hash st s client fr restReads h5 hb]
      rfl
    · rw [serveFrame_blocked hash st s client fr restReads h5 hb]
  | cons resp brpyRest =>
    cases resp with
    | fail =>
      refine Or.inr (Or.inl ⟨brpyRenderReq hash fr, BrpyRenderResponse.fail, ?_⟩)
      rw [serveFrame_fail hash st s client fr restReads brpyRest h5 hb]
      rfl
    | okay image =>
      refine Or.inr (Or.inl ⟨brpyRenderReq hash fr, BrpyRenderResponse.okay image, ?_⟩)
      cases h7 : pathExtension image with
      | none =>
        rw [serveFrame_no_ext hash st s client fr restReads image brpyRest h5 hb h7]
        rfl
      | some ext =>
        cases h8 : fsLookup st.fs image with
        | none =>
          rw [serveFrame_no_read hash st s client fr restReads image brpyRest ext h5 hb h7 h8]
          rfl
        | some data =>
          rw [serveFrame_okay hash st s client fr restReads image brpyRest ext data h5 hb h7 h8]
          by_cases hw : client.writeOk = true
          · rw [if_pos hw]; rfl
          · rw [if_neg hw]; rfl

theorem worker_step_backend_shape (hash : String → Nat) (st : WState) :
    backendEvents (worker_brpy_step hash st).1 = [] ∨
    (∃ req resp, backendEvents (worker_brpy_step hash st).1 =
      [BEvent.write req, BEvent.read resp]) ∨
    (∃ req, backendEvents (worker_brpy_step hash st).1 = [BEvent.write req] ∧
      (worker_brpy_step hash st).2 = none) := by
  by_cases hlen : st.requesters.length = 0
  · left
    simp only [worker_brpy_step, if_pos hlen, backendEvents, List.filterMap_nil]
  · cases hfs : findSlot st.requesters st.slot with
    | none =>
      left
      simp only [worker_brpy_step, if_neg hlen, hfs, backendEvents, List.filterMap_nil]
    | some s =>
      cases hgd : st.requesters.getD s none with
      | none =>
        left
        simp only [worker_brpy_step, if_neg hlen, hfs, hgd, backendEvents, List.filterMap_nil]
      | some client =>
        cases hr : client.reads with
        | nil =>
          left
          simp only [worker_brpy_step, if_neg hlen, hfs, hgd, hr]
          rfl
        | cons r rest =>
          cases r with
          | none =>
            left
            simp only [worker_brpy_step, if_neg hlen, hfs, hgd, hr]
            rfl
          | some fr =>
            rw [worker_step_serve hash st s client fr rest hfs hgd hr]
            cases hd : st.dirResults.headD none with
            | none =>
              exact serveFrame_backend_shape_aux hash st s client fr rest (by rw [hd]; exact fun h => Option.noConfusion h)
            | some de =>
              cases de with
              | alreadyExists =>
                refine serveFrame_backend_shape_aux hash st s client fr rest ?_
                rw [hd]
                intro h
                exact DirError.noConfusion (Option.some.inj h)
              | other =>
                left
                rw [serveFrame_dir_panic hash st s client fr rest hd]
                rfl

/-- Claim C7: the brpy stream is moved into the single worker_brpy thread
(src/main.rs line 256), so after the startup query all backend traffic is
this thread's trace; in every bounded run of the worker loop the backend
events alternate strictly - each BrpyRequest write is followed by the full
read of its framed response before any further write - so at most one
request is in flight against the render backend at any time, for any
number of concurrent client sessions feeding the requester pool. -/
theorem backend_one_in_flight (hash : String → Nat) (fuel : Nat) (st : WState) :
    WriteReadAlt (backendEvents (worker_brpy_run hash fuel st)) := by
  induction fuel generalizing st with
  | zero => exact WriteReadAlt.nil
  | succ n ih =>
    have hshape := worker_step_backend_shape hash st
    unfold worker_brpy_run
    cases hstep : worker_brpy_step hash st with
    | mk evs o =>
      rw [hstep] at hshape
      dsimp only at hshape
      cases o with
      | none =>
        rcases hshape with h | ⟨req, resp, h⟩ | ⟨req, h, -⟩
        · rw [h]; exact WriteReadAlt.nil
        · rw [h]; exact WriteReadAlt.pair req resp [] WriteReadAlt.nil
        · rw [h]; exact WriteReadAlt.lastWrite req
      | some st' =>
        rw [backendEvents_append]
        rcases hshape with h | ⟨req, resp, h⟩ | ⟨req, h, hnone⟩
        · rw [h]
          exact ih st'
        · rw [h]
          exact WriteReadAlt.pair req resp _ (ih st')
        · exact Option.noConfusion hnone

theorem handshake_append {l1 l2 : List Event}
    (h1 : HandshakeOK l1) (h2 : HandshakeOK l2) : HandshakeOK (l1 ++ l2) := by
  induction h1 with
  | nil => exact h2
  | skip e l he _ ih => exact HandshakeOK.skip e _ he ih
  | pair s fr l _ ih => exact HandshakeOK.pair s fr _ ih

theorem serveFrame_handshake (hash : String → Nat) (st : WState) (s : Nat)
    (client : Client) (fr : FrameRequest) (restReads : List (Option FrameRequest)) :
    HandshakeOK (serveFrame hash st s client fr restReads).1 := by
  have main : st.dirResults.headD none ≠ some DirError.other →
      HandshakeOK (serveFrame hash st s client fr restReads).1 := by
    intro h5
    cases hb : st.brpyIn with
    | nil =>
      rw [serveFrame_blocked hash st s client fr restReads h5 hb]
      exact HandshakeOK.pair s fr _ (HandshakeOK.skip _ _ rfl HandshakeOK.nil)
    | cons resp brpyRest =>
      cases resp with
      | fail =>
        rw [serveFrame_fail hash st s client fr restReads brpyRest h5 hb]
        exact HandshakeOK.pair s fr _
          (HandshakeOK.skip _ _ rfl (HandshakeOK.skip _ _ rfl HandshakeOK.nil))
      | okay image =>
        cases h7 : pathExtension image with
        | none =>
          rw [serveFrame_no_ext hash st s client fr restReads image brpyRest h5 hb h7]
          exact HandshakeOK.pair s fr _
            (HandshakeOK.skip _ _ rfl (HandshakeOK.skip _ _ rfl HandshakeOK.nil))
        | some ext =>
          cases h8 : fsLookup st.fs image with
          | none =>
            rw [serveFrame_no_read hash st s client fr restReads image brpyRest ext h5 hb h7 h8]
            exact HandshakeOK.pair s fr _
              (HandshakeOK.skip _ _ rfl (HandshakeOK.skip _ _ rfl HandshakeOK.nil))
          | some data =>
            rw [serveFrame_okay hash st s client fr restReads image brpyRest ext data h5 hb h7 h8]
            by_cases hw : client.writeOk = true
            · rw [if_pos hw]
              exact HandshakeOK.pair s fr _
                (HandshakeOK.skip _ _ rfl (HandshakeOK.skip _ _ rfl
                  (HandshakeOK.skip _ _ rfl (HandshakeOK.skip _ _ rfl HandshakeOK.nil))))
            · rw [if_neg hw]
              exact HandshakeOK.pair s fr _
                (HandshakeOK.skip _ _ rfl (HandshakeOK.skip _ _ rfl
                  (HandshakeOK.skip _ _ rfl (HandshakeOK.skip _ _ rfl HandshakeOK.nil))))
  cases hd : st.dirResults.headD none with
  | none => exact main (by rw [hd]; exact fun h => Option.noConfusion h)
  | some de =>
    cases de with
    | alreadyExists =>
      refine main ?_
      rw [hd]
      intro h
      exact DirError.noConfusion (Option.some.inj h)
    | other =>
      rw [serveFrame_dir_panic hash st s client fr restReads hd]
      exact HandshakeOK.pair s fr _ HandshakeOK.nil

theorem worker_step_handshake (hash : String → Nat) (st : WState) :
    HandshakeOK (worker_brpy_step hash st).1 := by
  by_cases hlen : st.requesters.length = 0
  · simp only [worker_brpy_step, if_pos hlen]
    exact HandshakeOK.nil
  · cases hfs : findSlot st.requesters st.slot with
    | none =>
      simp only [worker_brpy_step, if_neg hlen, hfs]
      exact HandshakeOK.nil
    | some s =>
      cases hgd : st.requesters.getD s none with
      | none =>
        simp only [worker_brpy_step, if_neg hlen, hfs, hgd]
        exact HandshakeOK.nil
      | some client =>
        cases hr : client.reads with
        | nil =>
          simp only [worker_brpy_step, if_neg hlen, hfs, hgd, hr]
          exact HandshakeOK.skip _ _ rfl HandshakeOK.nil
        | cons r rest =>
          cases r with
          | none =>
            simp only [worker_brpy_step, if_neg hlen, hfs, hgd, hr]
            exact HandshakeOK.skip _ _ rfl HandshakeOK.nil
          | some fr =>
            rw [worker_step_serve hash st s client fr rest hfs hgd hr]
            exact serveFrame_handshake hash st s client fr rest

theorem worker_run_handshake (hash : String → Nat) (fuel : Nat) (st : WState) :
    HandshakeOK (worker_brpy_run hash fuel st) := by
  induction fuel generalizing st with
  | zero => exact HandshakeOK.nil
  | succ n ih =>
    have hh := worker_step_handshake hash st
    unfold worker_brpy_run
    cases hstep : worker_brpy_step hash st with
    | mk evs o =>
      rw [hstep] at hh
      dsimp only at hh
      cases o with
      | none => exact hh
      | some st' => exact handshake_append hh (ih st')

/-- Claim C9: in every run of the worker loop, a FrameRequest is read from
a requester only immediately after the Accept message was sent to that
same requester, so the handshake precedes every frame request; and
RenderAcceptResponse::Accept serialises as the externally tagged JSON
string "Accept" (the enum has no serde tag attribute), not as a lowercase
type-tagged object. -/
theorem accept_handshake_spec :
    (∀ (hash : String → Nat) (fuel : Nat) (st : WState),
      HandshakeOK (worker_brpy_run hash fuel st)) ∧
    renderAcceptJson RenderAcceptResponse.accept = "\"Accept\"" ∧
    renderAcceptJson RenderAcceptResponse.accept ≠ "\x7b\"type\":\"accept\"\x7d" :=
  ⟨worker_run_handshake, rfl, by decide⟩

/-- Claim C8: when the backend answers a render with Okay{image} and the
image file is readable, the worker streams the framed image bytes to the
requesting client (when writes to that client succeed), and removes the
image file, so the successfully rendered image no longer exists in the
resulting filesystem state. -/
theorem render_image_cleanup (hash : String → Nat) (st : WState) (s : Nat)
    (client : Client) (fr : FrameRequest) (restReads : List (Option FrameRequest))
    (image : String) (brpyRest : List BrpyRenderResponse) (ext : String) (data : List Nat)
    (h2 : findSlot st.requesters st.slot = some s)
    (h3 : st.requesters.getD s none = some client)
    (h4 : client.reads = some fr :: restReads)
    (h5 : st.dirResults.headD none ≠ some DirError.other)
    (h6 : st.brpyIn = BrpyRenderResponse.okay image :: brpyRest)
    (h7 : pathExtension image = some ext)
    (h8 : fsLookup st.fs image = some data) :
    ∃ evs st', worker_brpy_step hash st = (evs, some st') ∧
      Event.unlink image ∈ evs ∧
      fsLookup st'.fs image = none ∧
      (client.writeOk = true →
        Event.sentClient s (RenderResponse.okay data.length ext) data ∈ evs) := by
  have hstep := worker_step_serve hash st s client fr restReads h2 h3 h4
  rw [serveFrame_okay hash st s client fr restReads image brpyRest ext data h5 h6 h7 h8]
    at hstep
  refine ⟨_, _, hstep, ?_, ?_, ?_⟩
  · simp
  · exact fsLookup_fsErase st.fs image
  · intro hw
    simp [hw]

/-- Witness for render_image_cleanup at the concrete state wstSample. -/
theorem render_image_cleanup_witness :
    ∃ evs st', worker_brpy_step hashZero wstSample = (evs, some st') ∧
      Event.unlink imageSample ∈ evs ∧
      fsLookup st'.fs imageSample = none ∧
      (clientSample.writeOk = true →
        Event.sentClient 0 (RenderResponse.okay 3 "png") [9, 9, 9] ∈ evs) :=
  render_image_cleanup hashZero wstSample 0 clientSample
    { id := "scene-A", frame := 1 } [] imageSample [] "png" [9, 9, 9]
    (by decide) (by decide) rfl (by decide) rfl (by decide) (by decide)
